import Mathlib

/-!
# Aseba protocol client (`aseba.cpp`)

A shallow embedding of `src/aseba.cpp`: the integer-vector conversions, the
`AsebaClient` handlers for `connectionCreated` and `incomingData`,
`AsebaClient::send`, and the `AsebaNode` operations `setVariable` and
`setProgram`.

Stateful code is written as explicit state passing on `World`.  A `World` holds
the fields of the client object that the code reads or writes (`AsebaClient`)
together with logs of what the code did to its environment: the operations on
Dashel streams, the Qt signals emitted, the warnings and debug lines printed,
and the arguments of every call of `AsebaClient::send`.

The Aseba and Dashel libraries are not part of the source file.  What the code
needs from them enters as parameters: the numeric message type tags
(`MessageTypes`), the description lookup of the descriptions manager, the
compiler, and the bytecode fragmentation.  Writes to a stream are taken to
succeed.  `DashelHub::start`, the forwarding of hub errors, the node list and
the thread start and stop (lines 24-50 and 99-118) are not covered here.
-/

namespace Aseba

/-! ## Machine integers -/

/-- Conversion of an `unsigned` to `uint16`: reduction modulo `2^16`. -/
def toUint16 (n : Nat) : Nat := n % 2 ^ 16

/-- Conversion of an `int` to `sint16`: two's complement wrap-around into
`[-2^15, 2^15)`. -/
def toSint16 (x : Int) : Int := (x + 2 ^ 15) % 2 ^ 16 - 2 ^ 15

/-- The values a `sint16` can hold. -/
def fitsSint16 (x : Int) : Prop := -(2 ^ 15) ≤ x ∧ x < 2 ^ 15

instance (x : Int) : Decidable (fitsSint16 x) := by
  unfold fitsSint16; infer_instance

/-! ## Conversions between `QList<int>` and `std::vector<sint16>` -/

/-- The loop of `toAsebaVector`: `data.push_back(values[i])` for each remaining
element, each `int` narrowed to `sint16`. -/
def toAsebaVectorLoop : List Int → List Int → List Int
  | [], data => data
  | v :: rest, data => toAsebaVectorLoop rest (data ++ [toSint16 v])

/-- Function `toAsebaVector` (lines 7-14). -/
def toAsebaVector (values : List Int) : List Int :=
  toAsebaVectorLoop values []

/-- The loop of `fromAsebaVector`: `data.push_back(values[i])` for each
remaining element, each `sint16` widened to `int` (value preserved). -/
def fromAsebaVectorLoop : List Int → List Int → List Int
  | [], data => data
  | v :: rest, data => fromAsebaVectorLoop rest (data ++ [v])

/-- Function `fromAsebaVector` (lines 16-22). -/
def fromAsebaVector (values : List Int) : List Int :=
  fromAsebaVectorLoop values []

/-! ## Messages -/

/-- Outgoing messages constructed by the code.  The numeric fields are the
constructor arguments in the order of the C++ constructors, recorded as the
code passes them (the parameter types are declared in the Aseba headers). -/
inductive Message where
  | GetDescription
  | ListNodes
  | GetNodeDescription (dest : Nat)
  | SetVariables (dest : Nat) (start : Nat) (variablesVector : List Int)
  | SetBytecode (dest : Nat) (start : Nat) (bytecode : List Nat)
  | Run (dest : Nat)
  deriving DecidableEq, Repr

/-- A message returned by `Aseba::Message::receive`: its `type` tag, its
`source`, and, when its dynamic class is `Aseba::UserMessage`, the `data`
vector of that class (`none` for every other class). -/
structure Received where
  type : Nat
  source : Nat
  userData : Option (List Int)
  deriving DecidableEq, Repr

/-- The `ASEBA_MESSAGE_*` tags the dispatch switch names.  Their numeric values
are defined in an Aseba header, so they are taken as a parameter. -/
structure MessageTypes where
  NODE_PRESENT : Nat
  DESCRIPTION : Nat
  NAMED_VARIABLE_DESCRIPTION : Nat
  LOCAL_EVENT_DESCRIPTION : Nat
  NATIVE_FUNCTION_DESCRIPTION : Nat
  DISCONNECTED : Nat
  deriving DecidableEq, Repr

/-! ## Descriptions and the variables map -/

/-- The `Aseba::VariablesMap`: variable name to `(position, size)`. -/
abbrev VariablesMap := List (String × (Nat × Nat))

/-- Lookup of a key in the map. -/
def VariablesMap.find (m : VariablesMap) (name : String) : Option (Nat × Nat) :=
  match m with
  | [] => none
  | (k, v) :: rest => if k = name then some v else VariablesMap.find rest name

/-- The `operator[]` of `std::map`: the value bound to `name`; when `name` is
absent a value-initialised pair `(0, 0)` is inserted under `name` first. -/
def VariablesMap.index (m : VariablesMap) (name : String) :
    (Nat × Nat) × VariablesMap :=
  match VariablesMap.find m name with
  | some v => (v, m)
  | none => ((0, 0), m ++ [(name, (0, 0))])

/-- Modelled from the spec: `Aseba::TargetDescription`, declared in the Aseba
library.  The code uses it only through `getVariablesMap` and as an argument of
the compiler, so it is the variable-name-to-offset/length mapping it provides. -/
structure TargetDescription where
  getVariablesMap : VariablesMap
  deriving DecidableEq, Repr

/-! ## State -/

/-- An operation performed on a Dashel stream. -/
inductive StreamOp where
  | serialize (stream : Nat) (message : Message)
  | flush (stream : Nat)
  deriving DecidableEq, Repr

/-- A Qt signal emitted by the client. -/
inductive Signal where
  | userMessage (type : Nat) (data : List Int)
  deriving DecidableEq, Repr

/-- The fields of `AsebaClient` the code reads or writes.  `stream` is the
`Dashel::Stream*` member (`none` is the null pointer).  `manager` is the state
of the descriptions manager, held as the sequence of messages handed to its
`processMessage` so far. -/
structure AsebaClient where
  stream : Option Nat
  manager : List Received
  deriving DecidableEq, Repr

/-- The client together with what the code has done to its environment.
`sent` lists the arguments of the calls of `AsebaClient::send`, in call order,
whether or not the call wrote anything. -/
structure World where
  client : AsebaClient
  sent : List Message
  wire : List StreamOp
  signals : List Signal
  warnings : List String
  debug : List Received
  deriving DecidableEq, Repr

/-- A node proxy: the members `nodeId`, `description` and `variablesMap`. -/
structure AsebaNode where
  nodeId : Nat
  description : TargetDescription
  variablesMap : VariablesMap
  deriving DecidableEq, Repr

/-! ## `AsebaClient` -/

/-- Method `AsebaClient::send` (lines 120-125). -/
def AsebaClient.send (w : World) (message : Message) : World :=
  let w := { w with sent := w.sent ++ [message] }
  match w.client.stream with
  | some stream =>
    { w with wire := w.wire ++ [StreamOp.serialize stream message, StreamOp.flush stream] }
  | none => w

/-- The handler of `DashelHub::connectionCreated` (lines 55-65). -/
def AsebaClient.connectionCreated (w : World) (stream : Option Nat) : World :=
  let w := { w with client := { w.client with stream := stream } }
  let w := AsebaClient.send w Message.GetDescription
  AsebaClient.send w Message.ListNodes

/-- The handler of `DashelHub::incomingData` (lines 67-97), applied to the
message that `Aseba::Message::receive` returned.  `getDescription` is the
lookup of the descriptions manager in its current state. -/
def AsebaClient.incomingData (K : MessageTypes)
    (getDescription : List Received → Nat → Option TargetDescription)
    (w : World) (message : Received) : World :=
  let w := { w with debug := w.debug ++ [message] }
  if message.type = K.NODE_PRESENT then
    if getDescription w.client.manager message.source = none then
      AsebaClient.send w (Message.GetNodeDescription message.source)
    else w
  else if message.type = K.DESCRIPTION
      ∨ message.type = K.NAMED_VARIABLE_DESCRIPTION
      ∨ message.type = K.LOCAL_EVENT_DESCRIPTION
      ∨ message.type = K.NATIVE_FUNCTION_DESCRIPTION
      ∨ message.type = K.DISCONNECTED then
    { w with client := { w.client with manager := w.client.manager ++ [message] } }
  else
    match message.userData with
    | some data =>
      { w with signals := w.signals ++ [Signal.userMessage message.type (fromAsebaVector data)] }
    | none => w

/-! ## `AsebaNode` -/

/-- The constructor `AsebaNode::AsebaNode` (lines 127-131). -/
def AsebaNode.new (nodeId : Nat) (description : TargetDescription) : AsebaNode :=
  { nodeId := nodeId, description := description,
    variablesMap := description.getVariablesMap }

/-- Method `AsebaNode::setVariable` (lines 133-138).  Returns the world and the node
after the call (`operator[]` may modify `variablesMap`). -/
def AsebaNode.setVariable (w : World) (node : AsebaNode) (name : String)
    (value : List Int) : World × AsebaNode :=
  let r := VariablesMap.index node.variablesMap name
  let start := toUint16 r.1.1
  let variablesVector := value.map toSint16
  let message := Message.SetVariables node.nodeId start variablesVector
  (AsebaClient.send w message, { node with variablesMap := r.2 })

/-- The out-parameters and return value of `Aseba::Compiler::compile`. -/
structure CompileResult where
  result : Bool
  bytecode : List Nat
  allocatedVariablesCount : Nat
  error : String
  deriving DecidableEq, Repr

/-- The common definitions `setProgram` hands to the compiler: the events
`block` (1) and `link` (2). -/
def commonDefinitions : List (String × Nat) := [("block", 1), ("link", 2)]

/-- The `foreach` loop of `setProgram` (lines 162-165). -/
def sendAll (w : World) : List Message → World
  | [] => w
  | message :: rest => sendAll (AsebaClient.send w message) rest

/-- Method `AsebaNode::setProgram` (lines 140-169).  `compile` is the Aseba compiler
and `sendBytecode` the Aseba fragmentation routine, both library code. -/
def AsebaNode.setProgram
    (compile : TargetDescription → List (String × Nat) → String → CompileResult)
    (sendBytecode : Nat → List Nat → List Message)
    (w : World) (node : AsebaNode) (source : String) : World :=
  let r := compile node.description commonDefinitions source
  if r.result = false then
    { w with warnings := w.warnings ++ [r.error, source] }
  else
    let messages := sendBytecode node.nodeId (r.bytecode.map toUint16)
    let w := sendAll w messages
    AsebaClient.send w (Message.Run node.nodeId)

/-! ## Bytecode fragmentation -/

/-- Modelled from the spec: the loop of the fragmentation routine
`Aseba::sendBytecode`, which is library code.  While code words remain, the
next `cap` of them (fewer at the end) become one load message tagged with the
node id `dest` and the running offset `start`.  `fuel` bounds the number of
iterations. -/
def sendBytecodeLoop (cap dest : Nat) : Nat → Nat → List Nat → List Message
  | 0, _, _ => []
  | fuel + 1, start, words =>
    if words = [] then []
    else
      Message.SetBytecode dest start (words.take cap) ::
        sendBytecodeLoop cap dest fuel (start + (words.take cap).length) (words.drop cap)

/-- Modelled from the spec: `Aseba::sendBytecode`, the fragmentation of a
bytecode image into load messages of capacity `cap`, in order, with running
offsets starting at 0.  One iteration per code word is enough fuel when
`cap ≥ 1`. -/
def sendBytecode (cap dest : Nat) (bytecode : List Nat) : List Message :=
  sendBytecodeLoop cap dest bytecode.length 0 bytecode

/-- The code words carried by a sequence of messages, concatenated in message
order (only load messages carry code words). -/
def codeWords : List Message → List Nat
  | [] => []
  | Message.SetBytecode _ _ bytecode :: rest => bytecode ++ codeWords rest
  | _ :: rest => codeWords rest

/-- Every message is a load message for `dest` whose offset is `start` plus the
number of code words in the messages before it. -/
def runningOffsets (dest : Nat) : Nat → List Message → Prop
  | _, [] => True
  | start, Message.SetBytecode d s bytecode :: rest =>
    d = dest ∧ s = start ∧ runningOffsets dest (start + bytecode.length) rest
  | _, _ :: _ => False

/-! ## Sample inputs -/

/-- A world in which nothing has happened yet, with the given stream pointer. -/
def World.initial (stream : Option Nat) : World :=
  { client := { stream := stream, manager := [] },
    sent := [], wire := [], signals := [], warnings := [], debug := [] }

/-- A pairwise distinct assignment of the six type tags. -/
def sampleTypes : MessageTypes :=
  { NODE_PRESENT := 0x900C, DESCRIPTION := 0x9000,
    NAMED_VARIABLE_DESCRIPTION := 0x9001, LOCAL_EVENT_DESCRIPTION := 0x9002,
    NATIVE_FUNCTION_DESCRIPTION := 0x9003, DISCONNECTED := 0x9004 }

/-- A description whose map binds `speed` to offset 4 and length 2. -/
def speedDescription : TargetDescription :=
  { getVariablesMap := [("speed", (4, 2))] }

/-- A manager lookup that knows no node. -/
def noDescription : List Received → Nat → Option TargetDescription :=
  fun _ _ => none

/-- A manager lookup that has a complete description for node 3 only. -/
def node3Description : List Received → Nat → Option TargetDescription :=
  fun _ nodeId => if nodeId = 3 then some speedDescription else none

/-- A compiler stand-in that rejects every source text. -/
def rejectingCompile : TargetDescription → List (String × Nat) → String → CompileResult :=
  fun _ _ _ => { result := false, bytecode := [], allocatedVariablesCount := 0,
                 error := "syntax error" }

/-- A compiler stand-in that accepts every source text with a fixed image of
three code words. -/
def acceptingCompile : TargetDescription → List (String × Nat) → String → CompileResult :=
  fun _ _ _ => { result := true, bytecode := [7, 8, 9], allocatedVariablesCount := 0,
                 error := "" }

/-! ## Auxiliary lemmas -/

theorem toUint16_of_lt (n : Nat) (h : n < 2 ^ 16) : toUint16 n = n := by
  unfold toUint16
  exact Nat.mod_eq_of_lt h

theorem toSint16_of_fits (x : Int) (h : fitsSint16 x) : toSint16 x = x := by
  unfold fitsSint16 at h
  unfold toSint16
  omega

theorem map_toSint16_of_fits (value : List Int) (h : ∀ v ∈ value, fitsSint16 v) :
    value.map toSint16 = value := by
  induction value with
  | nil => rfl
  | cons v rest ih =>
    simp only [List.map_cons]
    rw [toSint16_of_fits v (h v (List.mem_cons_self v rest)),
      ih (fun u hu => h u (List.mem_cons_of_mem v hu))]

theorem fromAsebaVectorLoop_eq (values data : List Int) :
    fromAsebaVectorLoop values data = data ++ values := by
  induction values generalizing data with
  | nil => simp [fromAsebaVectorLoop]
  | cons v rest ih => simp [fromAsebaVectorLoop, ih]

theorem fromAsebaVector_eq (values : List Int) : fromAsebaVector values = values := by
  simp [fromAsebaVector, fromAsebaVectorLoop_eq]

theorem send_sent (w : World) (message : Message) :
    (AsebaClient.send w message).sent = w.sent ++ [message] := by
  unfold AsebaClient.send
  cases h : w.client.stream <;> simp [h]

theorem send_client (w : World) (message : Message) :
    (AsebaClient.send w message).client = w.client := by
  unfold AsebaClient.send
  cases h : w.client.stream <;> simp [h]

theorem send_wire_none (w : World) (message : Message) (h : w.client.stream = none) :
    (AsebaClient.send w message).wire = w.wire := by
  unfold AsebaClient.send
  simp [h]

theorem send_wire_some (w : World) (message : Message) (stream : Nat)
    (h : w.client.stream = some stream) :
    (AsebaClient.send w message).wire
      = w.wire ++ [StreamOp.serialize stream message, StreamOp.flush stream] := by
  unfold AsebaClient.send
  simp [h]

theorem send_rest (w : World) (message : Message) :
    (AsebaClient.send w message).signals = w.signals
      ∧ (AsebaClient.send w message).warnings = w.warnings
      ∧ (AsebaClient.send w message).debug = w.debug := by
  unfold AsebaClient.send
  cases h : w.client.stream <;> simp [h]

theorem sendAll_sent (messages : List Message) (w : World) :
    (sendAll w messages).sent = w.sent ++ messages := by
  induction messages generalizing w with
  | nil => simp [sendAll]
  | cons m rest ih => simp [sendAll, ih, send_sent]

theorem sendAll_client (messages : List Message) (w : World) :
    (sendAll w messages).client = w.client := by
  induction messages generalizing w with
  | nil => simp [sendAll]
  | cons m rest ih => simp [sendAll, ih, send_client]

theorem codeWords_loop (cap dest : Nat) (hcap : 1 ≤ cap) (fuel : Nat) :
    ∀ (start : Nat) (words : List Nat), words.length ≤ fuel →
      codeWords (sendBytecodeLoop cap dest fuel start words) = words := by
  induction fuel with
  | zero =>
    intro start words h
    have : words = [] := List.eq_nil_of_length_eq_zero (Nat.le_zero.mp h)
    subst this
    rfl
  | succ fuel ih =>
    intro start words h
    unfold sendBytecodeLoop
    by_cases hw : words = []
    · simp [hw, codeWords]
    · simp only [hw, if_false, codeWords]
      have hpos : 0 < words.length := List.length_pos.mpr hw
      rw [ih _ (words.drop cap) (by rw [List.length_drop]; omega)]
      exact List.take_append_drop cap words

theorem sendBytecodeLoop_fuel (cap dest : Nat) (hcap : 1 ≤ cap) (fuel1 : Nat) :
    ∀ (fuel2 start : Nat) (words : List Nat), words.length ≤ fuel1 → words.length ≤ fuel2 →
      sendBytecodeLoop cap dest fuel1 start words
        = sendBytecodeLoop cap dest fuel2 start words := by
  induction fuel1 with
  | zero =>
    intro fuel2 start words h1 _
    have : words = [] := List.eq_nil_of_length_eq_zero (Nat.le_zero.mp h1)
    subst this
    cases fuel2 <;> simp [sendBytecodeLoop]
  | succ fuel1 ih =>
    intro fuel2 start words h1 h2
    by_cases hw : words = []
    · subst hw
      cases fuel2 <;> simp [sendBytecodeLoop]
    · have hpos : 0 < words.length := List.length_pos.mpr hw
      cases fuel2 with
      | zero => omega
      | succ fuel2 =>
        simp only [sendBytecodeLoop, hw, if_false]
        rw [ih fuel2 _ (words.drop cap) (by rw [List.length_drop]; omega)
          (by rw [List.length_drop]; omega)]

theorem runningOffsets_loop (cap dest : Nat) (fuel : Nat) :
    ∀ (start : Nat) (words : List Nat),
      runningOffsets dest start (sendBytecodeLoop cap dest fuel start words) := by
  induction fuel with
  | zero => intro start words; simp [sendBytecodeLoop, runningOffsets]
  | succ fuel ih =>
    intro start words
    unfold sendBytecodeLoop
    by_cases hw : words = []
    · simp [hw, runningOffsets]
    · simp only [hw, if_false, runningOffsets, true_and]
      exact ih _ _

theorem capacity_loop (cap dest : Nat) (fuel : Nat) :
    ∀ (start : Nat) (words : List Nat),
      ∀ m ∈ sendBytecodeLoop cap dest fuel start words,
        ∃ s ws, m = Message.SetBytecode dest s ws ∧ ws.length ≤ cap := by
  induction fuel with
  | zero => intro start words m hm; simp [sendBytecodeLoop] at hm
  | succ fuel ih =>
    intro start words m hm
    unfold sendBytecodeLoop at hm
    by_cases hw : words = []
    · simp [hw] at hm
    · simp only [hw, if_false, List.mem_cons] at hm
      rcases hm with hm | hm
      · exact ⟨start, words.take cap, hm, by simp [List.length_take]⟩
      · exact ih _ _ m hm

theorem runningOffsets_get (dest : Nat) (frags : List Message) :
    ∀ (start i : Nat) (h : i < frags.length), runningOffsets dest start frags →
      ∃ ws, frags[i] = Message.SetBytecode dest
        (start + (codeWords (frags.take i)).length) ws := by
  induction frags with
  | nil => intro start i h; simp at h
  | cons m rest ih =>
    intro start i h hro
    cases m with
    | SetBytecode d s bytecode =>
      simp only [runningOffsets] at hro
      obtain ⟨hd, hs, hrest⟩ := hro
      cases i with
      | zero => exact ⟨bytecode, by simp [codeWords, hd, hs]⟩
      | succ j =>
        have hj : j < rest.length := by simpa using h
        obtain ⟨ws, hws⟩ := ih (start + bytecode.length) j hj hrest
        refine ⟨ws, ?_⟩
        simp only [List.getElem_cons_succ, List.take_succ_cons, codeWords, List.length_append]
        rw [hws, Nat.add_assoc]
    | GetDescription => simp [runningOffsets] at hro
    | ListNodes => simp [runningOffsets] at hro
    | GetNodeDescription _ => simp [runningOffsets] at hro
    | SetVariables _ _ _ => simp [runningOffsets] at hro
    | Run _ => simp [runningOffsets] at hro

/-! ## `AsebaNode::setVariable` -/

/-- C1, as stated, fails.  Node 1 has an empty variable map, so `speed` is
absent from it; `setVariable("speed", [10, 20])` on a connected client still
passes a message to `AsebaClient::send`, namely `SetVariables(1, 0, [10, 20])`,
and that message is written to the stream. -/
theorem setVariable_unknown_name_counterexample :
    VariablesMap.find (AsebaNode.new 1 ⟨[]⟩).variablesMap "speed" = none
    ∧ (AsebaNode.setVariable (World.initial (some 0)) (AsebaNode.new 1 ⟨[]⟩) "speed"
        [10, 20]).1.sent = [Message.SetVariables 1 0 [10, 20]]
    ∧ (AsebaNode.setVariable (World.initial (some 0)) (AsebaNode.new 1 ⟨[]⟩) "speed"
        [10, 20]).1.sent ≠ (World.initial (some 0)).sent
    ∧ (AsebaNode.setVariable (World.initial (some 0)) (AsebaNode.new 1 ⟨[]⟩) "speed"
        [10, 20]).1.wire
        = [StreamOp.serialize 0 (Message.SetVariables 1 0 [10, 20]), StreamOp.flush 0] := by
  decide

/-- C1, amended.  For every node proxy and every variable name absent from the
proxy's variable map, `setVariable(name, values)` raises no error: it passes
exactly one message to `AsebaClient::send`, `SetVariables(n, 0, values)` with
each value narrowed to 16 bits, which is written and flushed when a stream is
connected and not written when none is; the client fields are unchanged and
the name becomes bound to `(0, 0)` in the proxy's map. -/
theorem setVariable_unknown_name (w : World) (node : AsebaNode) (name : String)
    (value : List Int) (h : VariablesMap.find node.variablesMap name = none) :
    (AsebaNode.setVariable w node name value).1.sent
        = w.sent ++ [Message.SetVariables node.nodeId 0 (value.map toSint16)]
    ∧ (AsebaNode.setVariable w node name value).1.wire
        = (match w.client.stream with
          | none => w.wire
          | some stream =>
            w.wire ++ [StreamOp.serialize stream
                (Message.SetVariables node.nodeId 0 (value.map toSint16)),
              StreamOp.flush stream])
    ∧ (AsebaNode.setVariable w node name value).1.client = w.client
    ∧ (AsebaNode.setVariable w node name value).2.variablesMap
        = node.variablesMap ++ [(name, (0, 0))] := by
  have hidx : VariablesMap.index node.variablesMap name
      = ((0, 0), node.variablesMap ++ [(name, (0, 0))]) := by
    unfold VariablesMap.index
    rw [h]
  have hz : toUint16 0 = 0 := rfl
  unfold AsebaNode.setVariable
  simp only [hidx, hz]
  refine ⟨send_sent _ _, ?_, send_client _ _, trivial⟩
  cases hs : w.client.stream with
  | none => exact send_wire_none _ _ hs
  | some stream => exact send_wire_some _ _ stream hs

/-- Witness for C1 (amended): an unconnected client and a node whose map binds
only `speed`; the absent name `led` with the value 70000, which narrows to
4464. -/
theorem setVariable_unknown_name_witness :
    VariablesMap.find (AsebaNode.new 2 speedDescription).variablesMap "led" = none
    ∧ (AsebaNode.setVariable (World.initial none) (AsebaNode.new 2 speedDescription) "led"
        [70000]).1.sent = [Message.SetVariables 2 0 [4464]]
    ∧ (AsebaNode.setVariable (World.initial none) (AsebaNode.new 2 speedDescription) "led"
        [70000]).1.wire = []
    ∧ (AsebaNode.setVariable (World.initial none) (AsebaNode.new 2 speedDescription) "led"
        [70000]).1.client = (World.initial none).client
    ∧ (AsebaNode.setVariable (World.initial none) (AsebaNode.new 2 speedDescription) "led"
        [70000]).2.variablesMap = [("speed", (4, 2)), ("led", (0, 0))] :=
  ⟨by decide,
    setVariable_unknown_name (World.initial none) (AsebaNode.new 2 speedDescription) "led"
      [70000] (by decide)⟩

/-- C3.  For every node proxy with id `n`, every name its variable map binds to
`(offset, length)` with `offset < 2^16`, and every value list whose elements
fit in a signed 16-bit integer, `setVariable(name, values)` passes exactly one
message to `AsebaClient::send`: `SetVariables(n, offset, values)` with the
values unchanged and in order.  The proxy's map is unchanged. -/
theorem setVariable_known_name (w : World) (node : AsebaNode) (name : String)
    (offset length : Nat) (value : List Int)
    (hfind : VariablesMap.find node.variablesMap name = some (offset, length))
    (hoffset : offset < 2 ^ 16) (hvalue : ∀ v ∈ value, fitsSint16 v) :
    (AsebaNode.setVariable w node name value).1.sent
        = w.sent ++ [Message.SetVariables node.nodeId offset value]
    ∧ (AsebaNode.setVariable w node name value).2 = node := by
  have hidx : VariablesMap.index node.variablesMap name
      = ((offset, length), node.variablesMap) := by
    unfold VariablesMap.index
    rw [hfind]
  unfold AsebaNode.setVariable
  simp only [hidx, toUint16_of_lt offset hoffset, map_toSint16_of_fits value hvalue]
  exact ⟨send_sent _ _, trivial⟩

/-- Witness for C3: the map `speed -> (4, 2)` and the values `[10, 20]` give one
`SetVariables` with start offset 4 and values `[10, 20]`. -/
theorem setVariable_known_name_witness :
    VariablesMap.find (AsebaNode.new 1 speedDescription).variablesMap "speed" = some (4, 2)
    ∧ (AsebaNode.setVariable (World.initial (some 0)) (AsebaNode.new 1 speedDescription)
        "speed" [10, 20]).1.sent = [Message.SetVariables 1 4 [10, 20]]
    ∧ (AsebaNode.setVariable (World.initial (some 0)) (AsebaNode.new 1 speedDescription)
        "speed" [10, 20]).2 = AsebaNode.new 1 speedDescription :=
  ⟨by decide,
    setVariable_known_name (World.initial (some 0)) (AsebaNode.new 1 speedDescription)
      "speed" 4 2 [10, 20] (by decide) (by decide) (by decide)⟩

/-! ## `AsebaNode::setProgram` -/

/-- C2.  For every source text on which the compiler returns false,
`setProgram` passes no message to `AsebaClient::send`, neither a load message
nor a run command, and writes nothing to any stream; it prints the compiler's
error text and the source, and leaves the client unchanged.  This holds for
every compiler and every fragmentation routine. -/
theorem setProgram_compile_failure
    (compile : TargetDescription → List (String × Nat) → String → CompileResult)
    (frag : Nat → List Nat → List Message)
    (w : World) (node : AsebaNode) (source : String)
    (h : (compile node.description commonDefinitions source).result = false) :
    (AsebaNode.setProgram compile frag w node source).sent = w.sent
    ∧ (AsebaNode.setProgram compile frag w node source).wire = w.wire
    ∧ (AsebaNode.setProgram compile frag w node source).client = w.client
    ∧ (AsebaNode.setProgram compile frag w node source).warnings
        = w.warnings ++ [(compile node.description commonDefinitions source).error, source] := by
  unfold AsebaNode.setProgram
  simp [h]

/-- Witness for C2: a rejected source text on a connected client. -/
theorem setProgram_compile_failure_witness :
    (rejectingCompile (AsebaNode.new 5 speedDescription).description commonDefinitions
        "onevent").result = false
    ∧ (AsebaNode.setProgram rejectingCompile (sendBytecode 2) (World.initial (some 0))
        (AsebaNode.new 5 speedDescription) "onevent").sent = []
    ∧ (AsebaNode.setProgram rejectingCompile (sendBytecode 2) (World.initial (some 0))
        (AsebaNode.new 5 speedDescription) "onevent").wire = []
    ∧ (AsebaNode.setProgram rejectingCompile (sendBytecode 2) (World.initial (some 0))
        (AsebaNode.new 5 speedDescription) "onevent").client = (World.initial (some 0)).client
    ∧ (AsebaNode.setProgram rejectingCompile (sendBytecode 2) (World.initial (some 0))
        (AsebaNode.new 5 speedDescription) "onevent").warnings = ["syntax error", "onevent"] :=
  ⟨by decide,
    setProgram_compile_failure rejectingCompile (sendBytecode 2) (World.initial (some 0))
      (AsebaNode.new 5 speedDescription) "onevent" (by decide)⟩

/-- C4.  For every source text that compiles on a node with id `n`, the
messages `setProgram` passes to `AsebaClient::send` are exactly the messages
the fragmentation routine produced for node `n` from the 16-bit code words, in
the order it produced them, followed by one `Run(n)` as the last message.
This holds for every fragmentation routine; for the fragmentation into chunks
of any capacity every message before the `Run` is a load message for `n`. -/
theorem setProgram_compile_success
    (compile : TargetDescription → List (String × Nat) → String → CompileResult)
    (frag : Nat → List Nat → List Message)
    (w : World) (node : AsebaNode) (source : String)
    (h : (compile node.description commonDefinitions source).result = true) :
    (AsebaNode.setProgram compile frag w node source).sent
        = w.sent
          ++ frag node.nodeId
              ((compile node.description commonDefinitions source).bytecode.map toUint16)
          ++ [Message.Run node.nodeId]
    ∧ (AsebaNode.setProgram compile frag w node source).client = w.client
    ∧ ∀ cap : Nat, ∀ m ∈ sendBytecode cap node.nodeId
        ((compile node.description commonDefinitions source).bytecode.map toUint16),
        ∃ start words, m = Message.SetBytecode node.nodeId start words := by
  unfold AsebaNode.setProgram
  simp only [h, Bool.true_eq_false, if_false]
  refine ⟨?_, ?_, ?_⟩
  · rw [send_sent, sendAll_sent]
  · rw [send_client, sendAll_client]
  · intro cap m hm
    obtain ⟨s, ws, hm, _⟩ := capacity_loop cap node.nodeId _ _ _ m hm
    exact ⟨s, ws, hm⟩

/-- Witness for C4: an image of three code words on node 5, fragmented with
capacity 2, is sent as two load messages followed by `Run(5)`. -/
theorem setProgram_compile_success_witness :
    (acceptingCompile (AsebaNode.new 5 speedDescription).description commonDefinitions
        "onevent block").result = true
    ∧ (AsebaNode.setProgram acceptingCompile (sendBytecode 2) (World.initial none)
        (AsebaNode.new 5 speedDescription) "onevent block").sent
        = [Message.SetBytecode 5 0 [7, 8], Message.SetBytecode 5 2 [9], Message.Run 5] :=
  ⟨by decide,
    (setProgram_compile_success acceptingCompile (sendBytecode 2) (World.initial none)
      (AsebaNode.new 5 speedDescription) "onevent block" (by decide)).1⟩

/-! ## `AsebaClient::send` and the connection handshake -/

/-- C7.  `AsebaClient::send(message)` with no stream set serialises and flushes
nothing; with the stream set to `s` it serialises the message to `s` once and
then flushes `s` once.  In both cases the client fields (the stream among
them), the emitted signals and the printed lines are unchanged, and no error is
raised (the function always returns). -/
theorem send_spec (w : World) (message : Message) :
    (AsebaClient.send w message).wire
        = (match w.client.stream with
          | none => w.wire
          | some stream =>
            w.wire ++ [StreamOp.serialize stream message, StreamOp.flush stream])
    ∧ (AsebaClient.send w message).client = w.client
    ∧ (AsebaClient.send w message).signals = w.signals
    ∧ (AsebaClient.send w message).warnings = w.warnings
    ∧ (AsebaClient.send w message).debug = w.debug
    ∧ (AsebaClient.send w message).sent = w.sent ++ [message] := by
  unfold AsebaClient.send
  cases h : w.client.stream <;> simp [h]

/-- C8.  On a `connectionCreated(stream)` event with a non-null stream `s`, the
client records `s` as its stream and then writes exactly two messages to `s`,
`GetDescription` followed by `ListNodes`, each serialised and then flushed;
nothing else is written, emitted or handed to the descriptions manager. -/
theorem connectionCreated_handshake (w : World) (s : Nat) :
    (AsebaClient.connectionCreated w (some s)).client.stream = some s
    ∧ (AsebaClient.connectionCreated w (some s)).wire
        = w.wire ++ [StreamOp.serialize s Message.GetDescription, StreamOp.flush s,
            StreamOp.serialize s Message.ListNodes, StreamOp.flush s]
    ∧ (AsebaClient.connectionCreated w (some s)).sent
        = w.sent ++ [Message.GetDescription, Message.ListNodes]
    ∧ (AsebaClient.connectionCreated w (some s)).client.manager = w.client.manager
    ∧ (AsebaClient.connectionCreated w (some s)).signals = w.signals := by
  simp [AsebaClient.connectionCreated, AsebaClient.send]

/-! ## Inbound dispatch -/

/-- C5, as stated, fails.  A "node present" message from node 3 is not handed
to the descriptions manager, neither when the manager has no description for
node 3 nor when it has one: the sequence of messages given to `processMessage`
stays empty. -/
theorem incomingData_node_present_counterexample :
    (⟨0x900C, 3, none⟩ : Received).type = sampleTypes.NODE_PRESENT
    ∧ noDescription (World.initial (some 7)).client.manager 3 = none
    ∧ (⟨0x900C, 3, none⟩ : Received) ∉
        (AsebaClient.incomingData sampleTypes noDescription (World.initial (some 7))
          ⟨0x900C, 3, none⟩).client.manager
    ∧ node3Description (World.initial (some 7)).client.manager 3 = some speedDescription
    ∧ (⟨0x900C, 3, none⟩ : Received) ∉
        (AsebaClient.incomingData sampleTypes node3Description (World.initial (some 7))
          ⟨0x900C, 3, none⟩).client.manager := by
  decide

/-- C5, amended.  For every inbound message with type tag "node present", the
dispatch does not hand the message to the descriptions manager
(`processMessage` is not invoked and the manager state is unchanged), whether
or not a description already exists for the message's source. -/
theorem incomingData_node_present_not_forwarded (K : MessageTypes)
    (getDescription : List Received → Nat → Option TargetDescription)
    (w : World) (message : Received) (h : message.type = K.NODE_PRESENT) :
    (AsebaClient.incomingData K getDescription w message).client.manager
      = w.client.manager := by
  unfold AsebaClient.incomingData
  simp only [h, if_true]
  split
  · rw [send_client]
  · rfl

/-- Witness for C5 (amended): the manager has already processed one description
message; a "node present" message from node 4 leaves that history as it is. -/
theorem incomingData_node_present_not_forwarded_witness :
    (⟨0x900C, 4, none⟩ : Received).type = sampleTypes.NODE_PRESENT
    ∧ (AsebaClient.incomingData sampleTypes node3Description
        { World.initial (some 7) with
          client := { stream := some 7, manager := [⟨0x9000, 3, none⟩] } }
        ⟨0x900C, 4, none⟩).client.manager = [⟨0x9000, 3, none⟩] :=
  ⟨by decide,
    incomingData_node_present_not_forwarded sampleTypes node3Description
      { World.initial (some 7) with
        client := { stream := some 7, manager := [⟨0x9000, 3, none⟩] } }
      ⟨0x900C, 4, none⟩ (by decide)⟩

/-- C6.  For every inbound "node present" message from source `s`: when the
manager's `getDescription(s)` is absent, the dispatch passes exactly one
message to `AsebaClient::send`, `GetNodeDescription(s)` (written and flushed on
the client's stream when one is set), emits no signal and leaves the client and
manager state unchanged; when `getDescription(s)` is present, the dispatch
sends and writes nothing and the manager state is unchanged, so
`getDescription(s)` returns the same record afterwards. -/
theorem incomingData_node_present (K : MessageTypes)
    (getDescription : List Received → Nat → Option TargetDescription)
    (w : World) (message : Received) (h : message.type = K.NODE_PRESENT) :
    match getDescription w.client.manager message.source with
    | none =>
      (AsebaClient.incomingData K getDescription w message).sent
          = w.sent ++ [Message.GetNodeDescription message.source]
      ∧ (AsebaClient.incomingData K getDescription w message).wire
          = (match w.client.stream with
            | none => w.wire
            | some stream =>
              w.wire ++ [StreamOp.serialize stream (Message.GetNodeDescription message.source),
                StreamOp.flush stream])
      ∧ (AsebaClient.incomingData K getDescription w message).client = w.client
      ∧ (AsebaClient.incomingData K getDescription w message).signals = w.signals
    | some description =>
      (AsebaClient.incomingData K getDescription w message).sent = w.sent
      ∧ (AsebaClient.incomingData K getDescription w message).wire = w.wire
      ∧ (AsebaClient.incomingData K getDescription w message).client = w.client
      ∧ (AsebaClient.incomingData K getDescription w message).signals = w.signals
      ∧ getDescription (AsebaClient.incomingData K getDescription w message).client.manager
          message.source = some description := by
  unfold AsebaClient.incomingData
  simp only [h, if_true]
  cases hd : getDescription w.client.manager message.source with
  | none =>
    simp only [if_true]
    refine ⟨send_sent _ _, ?_, send_client _ _, (send_rest _ _).1⟩
    cases hs : w.client.stream with
    | none => exact send_wire_none _ _ hs
    | some stream => exact send_wire_some _ _ stream hs
  | some description =>
    simp [hd]

/-- Witness for C6: a "node present" message from node 3 when the manager has
no description (one request is sent and written), and when it has one (nothing
is sent and the description is still returned). -/
theorem incomingData_node_present_witness :
    (⟨0x900C, 3, none⟩ : Received).type = sampleTypes.NODE_PRESENT
    ∧ ((AsebaClient.incomingData sampleTypes noDescription (World.initial (some 7))
          ⟨0x900C, 3, none⟩).sent = [Message.GetNodeDescription 3]
      ∧ (AsebaClient.incomingData sampleTypes noDescription (World.initial (some 7))
          ⟨0x900C, 3, none⟩).wire
          = [StreamOp.serialize 7 (Message.GetNodeDescription 3), StreamOp.flush 7]
      ∧ (AsebaClient.incomingData sampleTypes noDescription (World.initial (some 7))
          ⟨0x900C, 3, none⟩).client = (World.initial (some 7)).client
      ∧ (AsebaClient.incomingData sampleTypes noDescription (World.initial (some 7))
          ⟨0x900C, 3, none⟩).signals = [])
    ∧ ((AsebaClient.incomingData sampleTypes node3Description (World.initial (some 7))
          ⟨0x900C, 3, none⟩).sent = []
      ∧ (AsebaClient.incomingData sampleTypes node3Description (World.initial (some 7))
          ⟨0x900C, 3, none⟩).wire = []
      ∧ (AsebaClient.incomingData sampleTypes node3Description (World.initial (some 7))
          ⟨0x900C, 3, none⟩).client = (World.initial (some 7)).client
      ∧ (AsebaClient.incomingData sampleTypes node3Description (World.initial (some 7))
          ⟨0x900C, 3, none⟩).signals = []
      ∧ node3Description
          (AsebaClient.incomingData sampleTypes node3Description (World.initial (some 7))
            ⟨0x900C, 3, none⟩).client.manager 3 = some speedDescription) :=
  ⟨by decide,
    incomingData_node_present sampleTypes noDescription (World.initial (some 7))
      ⟨0x900C, 3, none⟩ (by decide),
    incomingData_node_present sampleTypes node3Description (World.initial (some 7))
      ⟨0x900C, 3, none⟩ (by decide)⟩

/-- C9.  For every inbound message whose type tag is neither "node present" nor
a description-family tag nor the disconnect tag: when the message is a user
message with type `t` and payload `d`, the dispatch emits exactly one
`userMessage(t, v)` signal, where `v` has the length of `d` and holds the same
signed values in the same order; when it is not a user message, no signal is
emitted.  In both cases nothing is sent or written and the descriptions manager
is not invoked. -/
theorem incomingData_default (K : MessageTypes)
    (getDescription : List Received → Nat → Option TargetDescription)
    (w : World) (message : Received)
    (h1 : message.type ≠ K.NODE_PRESENT)
    (h2 : message.type ≠ K.DESCRIPTION)
    (h3 : message.type ≠ K.NAMED_VARIABLE_DESCRIPTION)
    (h4 : message.type ≠ K.LOCAL_EVENT_DESCRIPTION)
    (h5 : message.type ≠ K.NATIVE_FUNCTION_DESCRIPTION)
    (h6 : message.type ≠ K.DISCONNECTED) :
    (AsebaClient.incomingData K getDescription w message).sent = w.sent
    ∧ (AsebaClient.incomingData K getDescription w message).wire = w.wire
    ∧ (AsebaClient.incomingData K getDescription w message).client = w.client
    ∧ match message.userData with
      | some d =>
        (AsebaClient.incomingData K getDescription w message).signals
            = w.signals ++ [Signal.userMessage message.type (fromAsebaVector d)]
        ∧ (fromAsebaVector d).length = d.length
        ∧ ∀ i : Nat, (fromAsebaVector d)[i]? = d[i]?
      | none =>
        (AsebaClient.incomingData K getDescription w message).signals = w.signals := by
  unfold AsebaClient.incomingData
  simp only [h1, h2, h3, h4, h5, h6, if_false, or_self]
  cases hu : message.userData with
  | none => simp
  | some d => simp [fromAsebaVector_eq]

/-- Witness for C9: a user message of type 2 with payload `[-1, 0, 32767]` is
delivered as `userMessage(2, [-1, 0, 32767])`. -/
theorem incomingData_default_witness :
    (AsebaClient.incomingData sampleTypes noDescription (World.initial (some 7))
        ⟨2, 3, some [-1, 0, 32767]⟩).sent = []
    ∧ (AsebaClient.incomingData sampleTypes noDescription (World.initial (some 7))
        ⟨2, 3, some [-1, 0, 32767]⟩).wire = []
    ∧ (AsebaClient.incomingData sampleTypes noDescription (World.initial (some 7))
        ⟨2, 3, some [-1, 0, 32767]⟩).client = (World.initial (some 7)).client
    ∧ (AsebaClient.incomingData sampleTypes noDescription (World.initial (some 7))
        ⟨2, 3, some [-1, 0, 32767]⟩).signals
        = [] ++ [Signal.userMessage 2 (fromAsebaVector [-1, 0, 32767])]
    ∧ (fromAsebaVector [-1, 0, 32767]).length = 3
    ∧ ∀ i : Nat, (fromAsebaVector [-1, 0, 32767])[i]? = [-1, 0, 32767][i]? :=
  incomingData_default sampleTypes noDescription (World.initial (some 7))
    ⟨2, 3, some [-1, 0, 32767]⟩ (by decide) (by decide) (by decide) (by decide)
    (by decide) (by decide)

/-! ## Fragmentation round trip -/

/-- C10.  For every bytecode image and every chunk capacity `cap ≥ 1`,
fragmenting the image into load messages and concatenating the fragments' code
words in the order the fragments are produced yields exactly the original
words; every fragment is a load message carrying the node id, at most `cap`
words, and an offset equal to the number of words in the fragments before
it.  The result does not depend on the iteration bound once it is at least the
number of words. -/
theorem sendBytecode_roundtrip (cap dest : Nat) (bytecode : List Nat) (hcap : 1 ≤ cap) :
    codeWords (sendBytecode cap dest bytecode) = bytecode
    ∧ (∀ fuel : Nat, bytecode.length ≤ fuel →
        sendBytecodeLoop cap dest fuel 0 bytecode = sendBytecode cap dest bytecode)
    ∧ (∀ (i : Nat) (h : i < (sendBytecode cap dest bytecode).length),
        ∃ words, (sendBytecode cap dest bytecode)[i]
            = Message.SetBytecode dest
                (codeWords ((sendBytecode cap dest bytecode).take i)).length words
          ∧ words.length ≤ cap) := by
  refine ⟨codeWords_loop cap dest hcap _ 0 bytecode (Nat.le_refl _), ?_, ?_⟩
  · intro fuel hfuel
    exact sendBytecodeLoop_fuel cap dest hcap fuel _ 0 bytecode hfuel (Nat.le_refl _)
  intro i h
  obtain ⟨ws, hws⟩ := runningOffsets_get dest _ 0 i h
    (runningOffsets_loop cap dest bytecode.length 0 bytecode)
  obtain ⟨s, ws2, hm, hlen⟩ := capacity_loop cap dest bytecode.length 0 bytecode
    _ (List.getElem_mem h)
  refine ⟨ws, by simpa using hws, ?_⟩
  have heq : Message.SetBytecode dest s ws2
      = Message.SetBytecode dest (0 + (codeWords
          ((sendBytecode cap dest bytecode).take i)).length) ws := by
    rw [← hm]; exact hws
  injection heq with _ _ hw
  rw [← hw]
  exact hlen

/-- Witness for C10: five code words on node 5 with capacity 2 give three
fragments at offsets 0, 2 and 4. -/
theorem sendBytecode_roundtrip_witness :
    sendBytecode 2 5 [11, 12, 13, 14, 15]
        = [Message.SetBytecode 5 0 [11, 12], Message.SetBytecode 5 2 [13, 14],
            Message.SetBytecode 5 4 [15]]
    ∧ codeWords (sendBytecode 2 5 [11, 12, 13, 14, 15]) = [11, 12, 13, 14, 15] :=
  ⟨by decide, (sendBytecode_roundtrip 2 5 [11, 12, 13, 14, 15] (by decide)).1⟩

end Aseba
